import Mathlib

/-!
Verification of the eudore standard logger (`loggerStd` / `entryStd`) and its
rotating file writer (`syncWriterRotate`), shallowly embedded from the Go
source.  Bytes are modelled as natural numbers below 256 in `List Nat`;
Go strings used as names and patterns are modelled as `List Char`.
-/

/-- Byte strings: each element is one byte of the Go `[]byte` / `string`. -/
abbrev Bytes := List Nat

/-- ASCII bytes of a Lean character list (Go string literal). -/
def asciiL (s : List Char) : Bytes := s.map Char.toNat

/-- ASCII bytes of a Lean string literal. -/
def asciiB (s : String) : Bytes := asciiL s.data

/-- Go `data[len(data)-1] = c`: overwrite the last byte of a buffer. -/
def setLast : Bytes → Nat → Bytes
  | [], _ => []
  | [_], c => [c]
  | b :: bs, c => b :: setLast bs c

/-- Whether `pat` is an initial run of `l` (Go `strings.HasPrefix` shape). -/
def startsSeq {α : Type} [DecidableEq α] : List α → List α → Bool
  | [], _ => true
  | _ :: _, [] => false
  | p :: ps, c :: cs => decide (p = c) && startsSeq ps cs

/-- Whether `pat` occurs contiguously inside `l` (Go `strings.Contains` shape). -/
def containsSeq {α : Type} [DecidableEq α] (pat : List α) : List α → Bool
  | [] => startsSeq pat []
  | c :: cs => startsSeq pat (c :: cs) || containsSeq pat cs

/-- Go `strings.Replace(s, pat, rep, 1)`: replace the first occurrence only;
`pat` is required nonempty (all patterns in the source are). -/
def replaceFirst (pat rep : List Char) : List Char → List Char
  | [] => []
  | c :: rest =>
    if startsSeq pat (c :: rest) ∧ pat ≠ [] then rep ++ (c :: rest).drop pat.length
    else c :: replaceFirst pat rep rest

/-- Fuel-bounded body of `replaceAll`; `fuel` is the number of characters
still allowed to be consumed and every step consumes at least one, so
`fuel = s.length` makes the bound inert. -/
def replaceAllAux (pat rep : List Char) : Nat → List Char → List Char
  | 0, s => s
  | fuel + 1, s =>
    match s with
    | [] => []
    | c :: rest =>
      if startsSeq pat (c :: rest) ∧ pat ≠ [] then
        rep ++ replaceAllAux pat rep fuel ((c :: rest).drop pat.length)
      else c :: replaceAllAux pat rep fuel rest

/-- Go `strings.Replace(s, pat, rep, -1)`: replace every occurrence;
`pat` is required nonempty (all patterns in the source are). -/
def replaceAll (pat rep s : List Char) : List Char := replaceAllAux pat rep s.length s

/-- Decimal digits of a natural number, most significant first (`fuel` bounds
the division loop; callers pass `n + 1`, always enough). -/
def natStrAux : Nat → Nat → List Char
  | 0, _ => []
  | _ + 1, 0 => []
  | fuel + 1, n => natStrAux fuel (n / 10) ++ [Char.ofNat (48 + n % 10)]

/-- Go `fmt.Sprint` of a nonnegative integer. -/
def natStr (n : Nat) : List Char := if n = 0 then ['0'] else natStrAux (n + 1) n

/-- Go `fmt.Sprint` of an `int` (used for the rotation index). -/
def intStr : Int → List Char
  | .ofNat n => natStr n
  | .negSucc n => '-' :: natStr (n + 1)

/-- Wall-clock instant, standing in for Go `time.Time`; fields are calendar
components (the theorems only use sane in-range values). -/
structure GoTime where
  year : Nat
  month : Nat
  day : Nat
  hour : Nat
  minute : Nat
  second : Nat
deriving DecidableEq

/-- Total order key for instants: lexicographic on the calendar fields
(valid for in-range components, which is all the model uses). -/
def timeKey (t : GoTime) : Nat :=
  ((((t.year * 13 + t.month) * 32 + t.day) * 24 + t.hour) * 60 + t.minute) * 60 + t.second

/-- Go `a.After(b)`: strictly later instant. -/
def timeAfter (a b : GoTime) : Bool := timeKey b < timeKey a

/-- Go `getNextHour`: the next full-hour boundary after `t`
(`time.Date(y, m, d, h+1, 0, 0, 0, loc)`); the day carry models
`time.Date`'s normalisation, month-end carries are outside the range the
theorems use. -/
def getNextHour (t : GoTime) : GoTime :=
  if t.hour + 1 < 24 then { t with hour := t.hour + 1, minute := 0, second := 0 }
  else { t with day := t.day + 1, hour := 0, minute := 0, second := 0 }

/-- Two-digit zero-padded decimal rendering of a calendar component. -/
def pad2 (n : Nat) : List Char := if n < 10 then ['0', Char.ofNat (48 + n)] else natStr n

/-- Fuel-bounded body of `goFormat`: Go `time.Format` restricted to the
numeric layout tokens the logger's date patterns produce
(`2006`, `06`, `01`, `02`, `15`, `04`, `05`); every other character is
copied verbatim, exactly as `time.Format` treats non-token text. -/
def goFormatAux (t : GoTime) : Nat → List Char → List Char
  | 0, s => s
  | fuel + 1, s =>
    match s with
    | [] => []
    | c :: rest =>
      if startsSeq "2006".data (c :: rest) then natStr t.year ++ goFormatAux t fuel ((c :: rest).drop 4)
      else if startsSeq "06".data (c :: rest) then pad2 (t.year % 100) ++ goFormatAux t fuel rest.tail
      else if startsSeq "01".data (c :: rest) then pad2 t.month ++ goFormatAux t fuel rest.tail
      else if startsSeq "02".data (c :: rest) then pad2 t.day ++ goFormatAux t fuel rest.tail
      else if startsSeq "15".data (c :: rest) then pad2 t.hour ++ goFormatAux t fuel rest.tail
      else if startsSeq "04".data (c :: rest) then pad2 t.minute ++ goFormatAux t fuel rest.tail
      else if startsSeq "05".data (c :: rest) then pad2 t.second ++ goFormatAux t fuel rest.tail
      else c :: goFormatAux t fuel rest

/-- Go `now.Format(layout)` over the model's token set. -/
def goFormat (t : GoTime) (layout : List Char) : List Char := goFormatAux t layout.length layout

/-- Go `formatDateName`: rewrite the user-facing date placeholders
(`yyyy`, `yy`, `MM`, `dd`, `HH`) into Go layout tokens, first occurrence
each, then format with the current time. -/
def formatDateName (now : GoTime) (name : List Char) : List Char :=
  let n := replaceFirst "yyyy".data "2006".data name
  let n := replaceFirst "yy".data "06".data n
  let n := replaceFirst "MM".data "01".data n
  let n := replaceFirst "dd".data "02".data n
  let n := replaceFirst "HH".data "15".data n
  goFormat now n

/-- Lookup into Go's `_hex = "0123456789abcdef"` table at index `d < 16`. -/
def hexDig (d : Nat) : Nat := if d < 10 then 48 + d else 87 + d

/-- Go `part1`, the start-of-entry marker: the nine bytes of
`OPENBRACE "time":" ` (0x7B is the opening brace). -/
def part1 : Bytes := [0x7B, 0x22, 0x74, 0x69, 0x6D, 0x65, 0x22, 0x3A, 0x22]

/-- Go `part2`: the bytes of `","level":"`. -/
def part2 : Bytes := [0x22, 0x2C, 0x22, 0x6C, 0x65, 0x76, 0x65, 0x6C, 0x22, 0x3A, 0x22]

/-- Go `part3`: the bytes of `","fields":` followed by an opening brace (0x7B). -/
def part3 : Bytes := [0x22, 0x2C, 0x22, 0x66, 0x69, 0x65, 0x6C, 0x64, 0x73, 0x22, 0x3A, 0x7B]

/-- Go `part4`: a lone double quote. -/
def part4 : Bytes := [0x22]

/-- Go `part5`: the bytes of `,"message":"`. -/
def part5 : Bytes := [0x2C, 0x22, 0x6D, 0x65, 0x73, 0x73, 0x61, 0x67, 0x65, 0x22, 0x3A, 0x22]

/-- Go `part6`: quote, closing brace (0x7D), newline. -/
def part6 : Bytes := [0x22, 0x7D, 0x0A]

/-- Go `part7`: closing brace (0x7D), newline. -/
def part7 : Bytes := [0x7D, 0x0A]

/-- Go `levels` table, verbatim from the source — including the misspelt
third entry `WARIRNG` (the source's literal bytes for the WARNING name). -/
def levelsB : List Bytes :=
  [asciiB "DEBUG", asciiB "INFO", asciiB "WARIRNG", asciiB "ERROR", asciiB "FATAL"]

/-- Lower bound of the accepted range for the second byte of a multi-byte
sequence, per leading byte (Go `acceptRanges[x>>4].lo`). -/
def accLo (b0 : Nat) : Nat := if b0 = 0xE0 then 0xA0 else if b0 = 0xF0 then 0x90 else 0x80

/-- Upper bound of the accepted range for the second byte of a multi-byte
sequence, per leading byte (Go `acceptRanges[x>>4].hi`). -/
def accHi (b0 : Nat) : Nat := if b0 = 0xED then 0x9F else if b0 = 0xF4 then 0x8F else 0xBF

/-- Go `utf8.DecodeRune` / `utf8.DecodeRuneInString`: decode the first rune of
a byte string, returning the code point and the number of bytes consumed;
every invalid, truncated, overlong, surrogate or out-of-range sequence yields
`(0xFFFD, 1)` exactly as Go's table-driven decoder does. -/
def decodeRune : List Nat → Nat × Nat
  | [] => (0xFFFD, 0)
  | b0 :: rest =>
    if b0 < 0x80 then (b0, 1)
    else if b0 < 0xC2 then (0xFFFD, 1)
    else if b0 < 0xE0 then
      match rest with
      | b1 :: _ =>
        if 0x80 ≤ b1 ∧ b1 ≤ 0xBF then ((b0 % 0x20) * 0x40 + b1 % 0x40, 2) else (0xFFFD, 1)
      | [] => (0xFFFD, 1)
    else if b0 < 0xF0 then
      match rest with
      | b1 :: b2 :: _ =>
        if accLo b0 ≤ b1 ∧ b1 ≤ accHi b0 then
          if 0x80 ≤ b2 ∧ b2 ≤ 0xBF then
            ((b0 % 0x10) * 0x1000 + (b1 % 0x40) * 0x40 + b2 % 0x40, 3)
          else (0xFFFD, 1)
        else (0xFFFD, 1)
      | _ => (0xFFFD, 1)
    else if b0 < 0xF5 then
      match rest with
      | b1 :: b2 :: b3 :: _ =>
        if accLo b0 ≤ b1 ∧ b1 ≤ accHi b0 then
          if 0x80 ≤ b2 ∧ b2 ≤ 0xBF then
            if 0x80 ≤ b3 ∧ b3 ≤ 0xBF then
              ((b0 % 8) * 0x40000 + (b1 % 0x40) * 0x1000 + (b2 % 0x40) * 0x40 + b3 % 0x40, 4)
            else (0xFFFD, 1)
          else (0xFFFD, 1)
        else (0xFFFD, 1)
      | _ => (0xFFFD, 1)
    else (0xFFFD, 1)

/-- Go `tryAddRuneSelf` for a single-byte character `b < 0x80`: the bytes it
appends — verbatim for printable bytes, backslash escapes for backslash,
quote, newline, carriage return and tab, and a `\u00XX` escape for the
remaining control bytes. -/
def escByte (b : Nat) : Bytes :=
  if 0x20 ≤ b ∧ b ≠ 0x5C ∧ b ≠ 0x22 then [b]
  else if b = 0x5C ∨ b = 0x22 then [0x5C, b]
  else if b = 0x0A then [0x5C, 0x6E]
  else if b = 0x0D then [0x5C, 0x72]
  else if b = 0x09 then [0x5C, 0x74]
  else [0x5C, 0x75, 0x30, 0x30, hexDig (b / 16), hexDig (b % 16)]

/-- Bytes of Go's `�` escape emitted by `tryAddRuneError`. -/
def runeErrEsc : Bytes := [0x5C, 0x75, 0x66, 0x66, 0x66, 0x64]

/-- Fuel-bounded body of `escString`; one iteration of the `writeString` /
`writeBytes` loop consumes at least one byte, so `fuel = s.length` is inert. -/
def escStringAux : Nat → Bytes → Bytes
  | 0, _ => []
  | fuel + 1, s =>
    match s with
    | [] => []
    | b :: rest =>
      if b < 0x80 then escByte b ++ escStringAux fuel rest
      else if (decodeRune (b :: rest)).1 = 0xFFFD ∧ (decodeRune (b :: rest)).2 = 1 then
        runeErrEsc ++ escStringAux fuel rest
      else
        (b :: rest).take (decodeRune (b :: rest)).2 ++
          escStringAux fuel ((b :: rest).drop (decodeRune (b :: rest)).2)

/-- Go `entryStd.writeString` (and the byte-for-byte identical
`entryStd.writeBytes`): the bytes the escaping loop appends to the entry's
buffer for input `s`. -/
def escString (s : Bytes) : Bytes := escStringAux s.length s

/-- Value of an ASCII hex digit, as a standard JSON parser reads `\uXXXX`. -/
def hexVal (c : Nat) : Nat :=
  if 48 ≤ c ∧ c ≤ 57 then c - 48
  else if 97 ≤ c ∧ c ≤ 102 then c - 87
  else if 65 ≤ c ∧ c ≤ 70 then c - 55 else 0

/-- Standard UTF-8 encoding of a code point, used by the JSON unescaper for
`\uXXXX` escapes. -/
def utf8Encode (c : Nat) : Bytes :=
  if c < 0x80 then [c]
  else if c < 0x800 then [0xC0 + c / 0x40, 0x80 + c % 0x40]
  else if c < 0x10000 then [0xE0 + c / 0x1000, 0x80 + c / 0x40 % 0x40, 0x80 + c % 0x40]
  else [0xF0 + c / 0x40000, 0x80 + c / 0x1000 % 0x40, 0x80 + c / 0x40 % 0x40, 0x80 + c % 0x40]

/-- Replacement for a single-character JSON escape `\c`. -/
def unescCh (e : Nat) : Bytes :=
  if e = 0x6E then [0x0A]
  else if e = 0x72 then [0x0D]
  else if e = 0x74 then [0x09]
  else if e = 0x62 then [0x08]
  else if e = 0x66 then [0x0C]
  else [e]

/-- Standard JSON string unescaping (spec side of the round-trip property):
`\uXXXX` becomes the UTF-8 encoding of the code point, single-character
escapes become their character, and every other byte is copied verbatim. -/
def jsonUnescape : Bytes → Bytes
  | [] => []
  | b :: rest =>
    if b = 0x5C then
      match rest with
      | [] => [0x5C]
      | e :: rest2 =>
        if e = 0x75 then
          match rest2 with
          | h1 :: h2 :: h3 :: h4 :: rest3 =>
            utf8Encode (hexVal h1 * 0x1000 + hexVal h2 * 0x100 + hexVal h3 * 0x10 + hexVal h4) ++
              jsonUnescape rest3
          | r => 0x5C :: 0x75 :: jsonUnescape r
        else unescCh e ++ jsonUnescape rest2
    else b :: jsonUnescape rest

/-- Fuel-bounded body of `replaceInvalid`. -/
def replaceInvalidAux : Nat → Bytes → Bytes
  | 0, _ => []
  | fuel + 1, s =>
    match s with
    | [] => []
    | b :: rest =>
      if b < 0x80 then b :: replaceInvalidAux fuel rest
      else if (decodeRune (b :: rest)).1 = 0xFFFD ∧ (decodeRune (b :: rest)).2 = 1 then
        0xEF :: 0xBF :: 0xBD :: replaceInvalidAux fuel rest
      else
        (b :: rest).take (decodeRune (b :: rest)).2 ++
          replaceInvalidAux fuel ((b :: rest).drop (decodeRune (b :: rest)).2)

/-- Spec side of the round-trip claim: the original message with each invalid
encoding sequence (one byte per Go decoding step) replaced by the UTF-8 bytes
of the Unicode replacement character U+FFFD. -/
def replaceInvalid (s : Bytes) : Bytes := replaceInvalidAux s.length s

/-- Hex digits of a natural number, most significant first, lowercase
(Go `strconv.AppendUint(data, v, 16)`); `fuel` bounds the division loop. -/
def natHexAux : Nat → Nat → Bytes
  | 0, _ => []
  | _ + 1, 0 => []
  | fuel + 1, n => natHexAux fuel (n / 16) ++ [hexDig (n % 16)]

/-- Go `strconv.AppendUint(data, v, 16)` for `v`, digits only. -/
def natHex (n : Nat) : Bytes := if n = 0 then [0x30] else natHexAux (n + 1) n

/-- Go `strconv.AppendUint(data, v, 10)`. -/
def natBytes (n : Nat) : Bytes := asciiL (natStr n)

/-- Go `strconv.AppendInt(data, v, 10)`. -/
def intBytes (i : Int) : Bytes := asciiL (intStr i)

/-- Runtime value as seen by `entryStd.writeReflect`'s dispatch: the three
capability interfaces checked first (each carrying the bytes its marshal or
`String()` call produced — on a marshal error the source feeds the error text
through the very same escaping path, so one byte payload covers both), then
one constructor per `reflect.Kind` group of the switch.  Float and complex
payloads carry their `strconv.AppendFloat` rendering opaquely, the claims
never inspect it.  A Go pointer or interface is `ptrv` of the value it
dereferences to (`reflect.Value.Elem`), with `ptrv invalid` for nil. -/
inductive RValue where
  | invalid
  | jsonMarshal (body : Bytes)
  | textMarshal (body : Bytes)
  | stringerV (body : Bytes)
  | boolv (b : Bool)
  | intv (i : Int)
  | uintv (n : Nat)
  | floatv (rendered : Bytes)
  | complexv (re im : Bytes)
  | strv (s : Bytes)
  | arrv (xs : List RValue)
  | mapv (kvs : List (RValue × RValue))
  | structv (fields : List (Bytes × Bool × RValue))
  | ptrv (v : RValue)
  | funcv (addr : Nat)

mutual

/-- Go `entryStd.writeReflect`: the bytes appended to the entry buffer for a
value.  Container cases append an opening bracket or brace, the
comma-terminated items, and then overwrite the final byte of the run with the
closing bracket or brace, exactly as the source's
`entry.data[len(entry.data)-1] = ...` does (the appended run is never empty,
so the overwrite stays inside it). -/
def writeReflect : RValue → Bytes
  | .invalid => [0x22, 0x22]
  | .jsonMarshal body => [0x22] ++ escString body ++ [0x22]
  | .textMarshal body => [0x22] ++ escString body ++ [0x22]
  | .stringerV body => [0x22] ++ escString body ++ [0x22]
  | .boolv b => if b then asciiB "true" else asciiB "false"
  | .intv i => intBytes i
  | .uintv n => natBytes n
  | .floatv rendered => rendered
  | .complexv re im => [0x22] ++ re ++ [0x2B] ++ im ++ [0x69, 0x22]
  | .strv s => [0x22] ++ escString s ++ [0x22]
  | .arrv xs => setLast (0x5B :: (if xs.isEmpty then [0x2C] else writeArrList xs)) 0x5D
  | .mapv kvs => setLast (0x7B :: writeMapList kvs) 0x7D
  | .structv fields => setLast (0x7B :: writeStructList fields) 0x7D
  | .ptrv v => writeReflect v
  | .funcv addr => [0x30, 0x78] ++ natHex addr

/-- Loop body of the sequence case: each element followed by a comma. -/
def writeArrList : List RValue → Bytes
  | [] => []
  | x :: xs => writeReflect x ++ [0x2C] ++ writeArrList xs

/-- Loop body of the map case: encoded key, colon, encoded value, comma. -/
def writeMapList : List (RValue × RValue) → Bytes
  | [] => []
  | (k, v) :: kvs => writeReflect k ++ [0x3A] ++ writeReflect v ++ [0x2C] ++ writeMapList kvs

/-- Loop body of the struct case: for each externally visible field
(`CanInterface`), the escaped — but unquoted — field name, colon, encoded
value, comma; invisible fields are skipped. -/
def writeStructList : List (Bytes × Bool × RValue) → Bytes
  | [] => []
  | (n, vis, v) :: fields =>
    (if vis then escString n ++ [0x3A] ++ writeReflect v ++ [0x2C] else []) ++
      writeStructList fields

end

/-- RFC3339 text of an instant (UTC modelled), the body `time.Time`'s
`MarshalJSON` produces between its quotes. -/
def rfc3339Chars (t : GoTime) : List Char :=
  natStr t.year ++ ['-'] ++ pad2 t.month ++ ['-'] ++ pad2 t.day ++ ['T'] ++
    pad2 t.hour ++ [':'] ++ pad2 t.minute ++ [':'] ++ pad2 t.second ++ ['Z']

/-- Go `time.Time.MarshalJSON` output: the RFC3339 text surrounded by double
quotes (the encoder then quotes and escapes this whole payload again). -/
def timeMarshalJSON (t : GoTime) : Bytes := [0x22] ++ asciiL (rfc3339Chars t) ++ [0x22]

/-- Dynamic value passed to `WithField`, split by the type assertions the
source performs: `int`, `string` and `time.Time` are the asserted types, and
everything else reaches `WriteValue` as a reflected value. -/
inductive FieldVal where
  | vint (i : Int)
  | vstr (s : List Char)
  | vtime (t : GoTime)
  | vother (v : RValue)

/-- Encoding of a `FieldVal` by `WriteValue` / `writeReflect` when it is
serialized as field data. -/
def fieldValEnc : FieldVal → Bytes
  | .vint i => writeReflect (.intv i)
  | .vstr s => writeReflect (.strv (asciiL s))
  | .vtime t => writeReflect (.jsonMarshal (timeMarshalJSON t))
  | .vother v => writeReflect v

/-- Go `entryStd`: one log entry.  `level` doubles as the configured threshold
on a freshly forked entry and as the emitted severity, `data` is the
accumulated field buffer, `depth` the caller-capture depth (negative when
caller capture is off).  The pool/template mechanics (`logout`, `getEntry`)
are modelled by `getEntry` producing the forked working entry the severity
methods operate on. -/
structure EntryStd where
  level : Nat
  time : GoTime
  message : Bytes
  data : Bytes
  timeformat : List Char
  depth : Int
deriving DecidableEq

/-- Data-field serialization tail of `WithField`: append
`"key":<encoded value>,` to the field buffer; the key bytes are appended raw,
without escaping, exactly as the source does. -/
def entryAppendField (e : EntryStd) (key : List Char) (v : FieldVal) : EntryStd :=
  { e with data := e.data ++ [0x22] ++ asciiL key ++ [0x22, 0x3A] ++ fieldValEnc v ++ [0x2C] }

/-- Go `entryStd.WithField`: the two control keys `depth` (adjust or toggle
caller capture) and `time` (store the capture timestamp) mutate the entry
without serializing; any other key — or a control key whose value fails the
type assertion — appends a data field. -/
def entryWithField (e : EntryStd) (key : List Char) (v : FieldVal) : EntryStd :=
  if key = "depth".data then
    match v with
    | .vint i => { e with depth := e.depth + i }
    | .vstr s =>
      if s = "enable".data ∧ e.depth < 0 then { e with depth := e.depth + 0x40 }
      else if s = "disable".data ∧ 0 < e.depth then { e with depth := e.depth - 0x40 }
      else e
    | v => entryAppendField e key v
  else if key = "time".data then
    match v with
    | .vtime t => { e with time := t }
    | v => entryAppendField e key v
  else entryAppendField e key v

/-- Go `entryStd.writeTo`: the full rendered line written to the sink.  The
timestamp rendered is `time.Now()` at render time (`now`), NOT the entry's
stored `time` field, which `writeTo` never reads.  `nfl` is the result of the
external caller-location service `logFormatNameFileLine`, consulted only when
`depth > 0`.  When the field buffer holds more than one byte its final comma
is overwritten with a closing brace and it is flushed after `part3`;
otherwise a lone quote closes the level.  A nonempty message is escaped into
the (possibly just cleared) buffer and flushed between `part5` and `part6`. -/
def writeTo (e : EntryStd) (now : GoTime) (nfl : List Char × List Char × Int) : Bytes :=
  let head := part1 ++ asciiL (goFormat now e.timeformat) ++ part2 ++ levelsB.getD e.level []
  let e :=
    if 0 < e.depth then
      entryWithField
        (entryWithField (entryWithField e "name".data (.vstr nfl.1)) "file".data (.vstr nfl.2.1))
        "line".data (.vint nfl.2.2)
    else e
  if 1 < e.data.length then
    let withFields := head ++ part3 ++ setLast e.data 0x7D
    if 0 < e.message.length then withFields ++ part5 ++ escString e.message ++ part6
    else withFields ++ part7
  else
    if 0 < e.message.length then head ++ part4 ++ part5 ++ (e.data ++ escString e.message) ++ part6
    else head ++ part4 ++ part7

/-- Logger configuration as the entry pool factory sees it: the minimum
severity, the timestamp pattern, and the factory depth (`4` with caller
capture on, `4 - 0x40` with it off). -/
structure LoggerCfgM where
  level : Nat
  timeformat : List Char
  depth : Int
deriving DecidableEq

/-- Go `entryStd.getEntry`: fork a working entry from the template — capture
`time.Now()`, seed `level` with the configured threshold, copy the template's
accumulated field bytes and depth. -/
def getEntry (cfg : LoggerCfgM) (now : GoTime) (tmplData : Bytes) : EntryStd :=
  { level := cfg.level, time := now, message := [], data := tmplData,
    timeformat := cfg.timeformat, depth := cfg.depth }

/-- Go `entryStd.Debug` on a forked working entry whose `level` still holds
the threshold: render and write only when the threshold is below 1; `msg` is
the already-formatted `fmt.Sprintln` text.  `none` models the dropped call —
no render, no write. -/
def entryDebug (e : EntryStd) (msg : Bytes) (now : GoTime)
    (nfl : List Char × List Char × Int) : Option Bytes :=
  if e.level < 1 then some (writeTo { e with message := msg } now nfl) else none

/-- Go `entryStd.Info`: threshold below 2; the emitted severity is set to 1. -/
def entryInfo (e : EntryStd) (msg : Bytes) (now : GoTime)
    (nfl : List Char × List Char × Int) : Option Bytes :=
  if e.level < 2 then some (writeTo { e with level := 1, message := msg } now nfl) else none

/-- Go `entryStd.Warning`: threshold below 3; emitted severity 2. -/
def entryWarning (e : EntryStd) (msg : Bytes) (now : GoTime)
    (nfl : List Char × List Char × Int) : Option Bytes :=
  if e.level < 3 then some (writeTo { e with level := 2, message := msg } now nfl) else none

/-- Go `entryStd.Error`: threshold below 4; emitted severity 3. -/
def entryError (e : EntryStd) (msg : Bytes) (now : GoTime)
    (nfl : List Char × List Char × Int) : Option Bytes :=
  if e.level < 4 then some (writeTo { e with level := 3, message := msg } now nfl) else none

/-- Go `entryStd.Fatal`: never filtered; emitted severity 4. -/
def entryFatal (e : EntryStd) (msg : Bytes) (now : GoTime)
    (nfl : List Char × List Char × Int) : Option Bytes :=
  some (writeTo { e with level := 4, message := msg } now nfl)

/-- Go `entryStd.Debugf` (formatted variant; also sets the severity to 0). -/
def entryDebugf (e : EntryStd) (msg : Bytes) (now : GoTime)
    (nfl : List Char × List Char × Int) : Option Bytes :=
  if e.level < 1 then some (writeTo { e with level := 0, message := msg } now nfl) else none

/-- Go `entryStd.Infof`. -/
def entryInfof (e : EntryStd) (msg : Bytes) (now : GoTime)
    (nfl : List Char × List Char × Int) : Option Bytes :=
  if e.level < 2 then some (writeTo { e with level := 1, message := msg } now nfl) else none

/-- Go `entryStd.Warningf`. -/
def entryWarningf (e : EntryStd) (msg : Bytes) (now : GoTime)
    (nfl : List Char × List Char × Int) : Option Bytes :=
  if e.level < 3 then some (writeTo { e with level := 2, message := msg } now nfl) else none

/-- Go `entryStd.Errorf`. -/
def entryErrorf (e : EntryStd) (msg : Bytes) (now : GoTime)
    (nfl : List Char × List Char × Int) : Option Bytes :=
  if e.level < 4 then some (writeTo { e with level := 3, message := msg } now nfl) else none

/-- Go `entryStd.Fatalf`: never filtered. -/
def entryFatalf (e : EntryStd) (msg : Bytes) (now : GoTime)
    (nfl : List Char × List Char × Int) : Option Bytes :=
  some (writeTo { e with level := 4, message := msg } now nfl)

/-- Plain logging call at severity `sev` (0 Debug, 1 Info, 2 Warning,
3 Error, 4 and above Fatal). -/
def plainCallAt : Nat → EntryStd → Bytes → GoTime → List Char × List Char × Int → Option Bytes
  | 0 => entryDebug
  | 1 => entryInfo
  | 2 => entryWarning
  | 3 => entryError
  | _ => entryFatal

/-- Formatted logging call at severity `sev` (0 Debugf … 4 and above Fatalf). -/
def fmtCallAt : Nat → EntryStd → Bytes → GoTime → List Char × List Char × Int → Option Bytes
  | 0 => entryDebugf
  | 1 => entryInfof
  | 2 => entryWarningf
  | 3 => entryErrorf
  | _ => entryFatalf

/-- File system as the writer sees it: named files with their byte contents,
a set of names for which `os.OpenFile` fails (the environment's failure
injection), and the bytes teed to standard output.  `bufio` buffering is
modelled as direct append — flushes never move bytes between files, so
which segment holds which bytes is unchanged. -/
structure FS where
  files : List (List Char × Bytes)
  failNames : List (List Char)
  stdoutB : Bytes
deriving DecidableEq

/-- Content of a named file, if it exists. -/
def fsLookup (fs : FS) (n : List Char) : Option Bytes :=
  (fs.files.find? fun f => decide (f.1 = n)).map (fun f => f.2)

/-- Go `file.Stat().Size()` after `os.OpenFile(..., O_CREATE, ...)`. -/
def fsSize (fs : FS) (n : List Char) : Nat := ((fsLookup fs n).getD []).length

/-- Effect of `os.OpenFile` with `O_CREATE` on a name that opens
successfully: create the file empty if absent. -/
def fsEnsure (fs : FS) (n : List Char) : FS :=
  if (fsLookup fs n).isSome then fs else { fs with files := fs.files ++ [(n, [])] }

/-- Append bytes to a named file (`O_APPEND` write). -/
def fsAppend (fs : FS) (n : List Char) (p : Bytes) : FS :=
  { fs with files := fs.files.map fun f => if f.1 = n then (f.1, f.2 ++ p) else f }

/-- Go `syncWriterRotate`'s mutable state: the name pattern, the stdout tee
flag, the size threshold, the next index to try when generating a segment
name (`int` in Go — `nextindex - 1` can be `-1`), the next hour boundary, the
byte count of the current file, and the currently open file's name (`none`
before the first rotation). -/
structure RotateState where
  name : List Char
  std : Bool
  maxSize : Nat
  nextindex : Int
  nexttime : GoTime
  nbytes : Nat
  fileName : Option (List Char)
deriving DecidableEq

/-- Loop body of Go `syncWriterRotate.rotateFile` over the date-formatted
name `dname`: substitute the next index, open (an injected failure returns
the error with the state as mutated so far, exactly like the Go early
return), and accept the file when its pre-existing size is below the
threshold, else try the next index.  On success the previous file is flushed
and closed and the post-rotation callbacks run (symlink refresh — external,
no effect on this model).  `fuel` bounds the index search, which the Go
source leaves unbounded; every run in this file stays far below it. -/
def rotateLoop : Nat → RotateState → FS → List Char → RotateState × FS × Option (List Char)
  | 0, w, fs, _ => (w, fs, some "rotate fuel exhausted".data)
  | fuel + 1, w, fs, dname =>
    let iname := replaceAll "index".data (intStr w.nextindex) dname
    if iname ∈ fs.failNames then (w, fs, some iname)
    else
      let fs2 := fsEnsure fs iname
      let w2 := { w with nextindex := w.nextindex + 1, nbytes := fsSize fs2 iname }
      if w2.nbytes < w2.maxSize then ({ w2 with fileName := some iname }, fs2, none)
      else rotateLoop fuel w2 fs2 dname

/-- Go `syncWriterRotate.rotateFile`: format the date tokens with the current
time, then search indices. -/
def rotateFile (fuel : Nat) (w : RotateState) (fs : FS) (now : GoTime) :
    RotateState × FS × Option (List Char) :=
  rotateLoop fuel w fs (formatDateName now w.name)

/-- Result of one `syncWriterRotate.Write` call: the returned byte count and
error, and the state and file system after it. -/
structure WriteRes where
  n : Nat
  err : Option (List Char)
  w : RotateState
  fs : FS
deriving DecidableEq

/-- Go `syncWriterRotate.Write`: size-based rotation fires only when the
write is exactly the nine-byte start-of-entry marker `part1` and the
accumulated size plus the write would reach the threshold — and its
`rotateFile()` error is DISCARDED, as in the source.  The hourly/date check
runs on EVERY write: past the recorded boundary, the boundary is advanced
and, if the date-formatted name at the previous index no longer matches the
open file, the index resets and a rotation runs mid-write-stream (its error
equally discarded).  The buffered write itself is modelled as always
succeeding with the full length, then the stdout tee and the byte-count
update. -/
def rotateWrite (fuel : Nat) (w : RotateState) (fs : FS) (now : GoTime) (p : Bytes) : WriteRes :=
  let sres :=
    if p.length = 9 ∧ w.maxSize ≤ w.nbytes + p.length ∧ p = part1 then
      let r := rotateFile fuel w fs now
      (r.1, r.2.1)
    else (w, fs)
  let w := sres.1
  let fs := sres.2
  let tres :=
    if timeAfter now w.nexttime then
      let w2 := { w with nexttime := getNextHour now }
      if replaceAll "index".data (intStr (w2.nextindex - 1)) (formatDateName now w2.name) ≠
          w2.fileName.getD [] then
        let r := rotateFile fuel { w2 with nextindex := 0 } fs now
        (r.1, r.2.1)
      else (w2, fs)
    else (w, fs)
  let w := tres.1
  let fs := tres.2
  let fs := fsAppend fs (w.fileName.getD []) p
  let fs := if w.std then { fs with stdoutB := fs.stdoutB ++ p } else fs
  ⟨p.length, none, { w with nbytes := w.nbytes + p.length }, fs⟩

/-- Run a sequence of writes, each carrying the wall-clock instant at which
it happens. -/
def rotateWrites (fuel : Nat) : RotateState → FS → List (GoTime × Bytes) → RotateState × FS
  | w, fs, [] => (w, fs)
  | w, fs, (t, p) :: rest =>
    let r := rotateWrite fuel w fs t p
    rotateWrites fuel r.w r.fs rest

/-- Writer variants returned by the constructors: the stdout sink, a plain
buffered file sink, or the rotating sink. -/
inductive LWriter where
  | stdoutW
  | fileW (name : List Char) (std : Bool)
  | rotateW (st : RotateState)
deriving DecidableEq

/-- Go `NewLoggerWriterFile`: an empty name falls back to the stdout sink
with no error; otherwise open the date-formatted name (failure propagates)
and wrap it in a buffered writer, teeing to stdout when `std` is set. -/
def NewLoggerWriterFileM (now : GoTime) (name : List Char) (std : Bool) (fs : FS) :
    (Option LWriter × Option (List Char)) × FS :=
  if name = [] then ((some .stdoutW, none), fs)
  else
    let fname := formatDateName now name
    if fname ∈ fs.failNames then ((none, some fname), fs)
    else ((some (.fileW fname std), none), fsEnsure fs fname)

/-- Go `NewLoggerWriterRotate`: a name without the `index` placeholder
disables size rotation; with size rotation disabled and no date-varying
component the writer degrades to the plain file sink (hence to stdout for an
empty name); otherwise the rotating state is built (unbounded threshold
`0xffffffff` when only date rotation applies) and the first segment is
opened, the construction error propagating alongside the writer. -/
def NewLoggerWriterRotateM (fuel : Nat) (now : GoTime) (name : List Char) (std : Bool)
    (maxsize : Nat) (fs : FS) : (Option LWriter × Option (List Char)) × FS :=
  let maxsize := if containsSeq "index".data name then maxsize else 0
  if maxsize = 0 ∧ name = formatDateName now name then NewLoggerWriterFileM now name std fs
  else
    let w : RotateState :=
      { name := name, std := std, maxSize := if maxsize = 0 then 0xffffffff else maxsize,
        nextindex := 0, nexttime := getNextHour now, nbytes := 0, fileName := none }
    let r := rotateFile fuel w fs now
    ((some (.rotateW r.1), r.2.2), r.2.1)

/-- Spec-side rendering of one mapping pair: encoded key, colon, encoded
value (string keys therefore arrive quoted, via the string case). -/
def mapPairEnc (kv : RValue × RValue) : Bytes := writeReflect kv.1 ++ [0x3A] ++ writeReflect kv.2

/-- Spec-side rendering of one struct pair as the source produces it:
escaped but UNQUOTED field name, colon, encoded value. -/
def structPairEnc (f : Bytes × Bool × RValue) : Bytes :=
  escString f.1 ++ [0x3A] ++ writeReflect f.2.2

/-- Externally visible fields of a struct (Go `CanInterface`). -/
def visFields (fields : List (Bytes × Bool × RValue)) : List (Bytes × Bool × RValue) :=
  fields.filter fun f => f.2.1

/-- Caller-location placeholder for runs with caller capture off. -/
def nfl0 : List Char × List Char × Int := ([], [], 0)

/-- Scenario C3/C5 configuration: threshold DEBUG, hour-only timestamp
pattern, caller capture off (`4 - 0x40 = -60`). -/
def c3cfg : LoggerCfgM := ⟨0, "15".data, -60⟩

/-- Scenario timestamp in hour 10. -/
def t3a : GoTime := ⟨2026, 1, 5, 10, 0, 0⟩

/-- Scenario timestamp in hour 11. -/
def t3b : GoTime := ⟨2026, 1, 5, 11, 0, 0⟩

/-- Scenario C3 working entry, captured at `t3b`. -/
def c3entry : EntryStd := getEntry c3cfg t3b []

/-- Scenario C3 entry after the `time` control key stored `t3a`. -/
def c3over : EntryStd := entryWithField c3entry "time".data (.vtime t3a)

/-- Scenario C5 rendered Warning line at threshold DEBUG. -/
def c5out : Bytes := (entryWarning (getEntry c3cfg t3b []) (asciiB "x") t3b nfl0).getD []

/-- Scenario C6 construction time (hour 10, far from the hour boundary). -/
def t6 : GoTime := ⟨2026, 1, 5, 10, 0, 0⟩

/-- Scenario C6 name pattern: size-rotating, no date tokens. -/
def c6name : List Char := "log.index".data

/-- Scenario C6 workload: `k` ten-byte lines, each written as the nine-byte
start-of-entry marker followed by one remaining byte, all inside hour 10. -/
def c6lines (k : Nat) : List (GoTime × Bytes) :=
  (List.replicate k [(t6, part1), (t6, ([0x41] : Bytes))]).flatten

/-- Scenario C6 pipeline: construct the rotating sink with threshold 100 over
an empty file system, then run `k` lines. -/
def c6pipeline (k : Nat) : RotateState × FS :=
  match NewLoggerWriterRotateM 9 t6 c6name false 100 ⟨[], [], []⟩ with
  | ((some (.rotateW w), none), fs) => rotateWrites 9 w fs (c6lines k)
  | _ => (⟨[], false, 0, 0, t6, 0, none⟩, ⟨[], [], []⟩)

/-- Scenario C2 name pattern: hour token plus size-rotation placeholder. -/
def c2name : List Char := "HH.index".data

/-- Scenario C2 pipeline: construct at 10:00 (hour boundary 11:00), write one
line's marker at 10:59:00 and the line's one remaining byte at 11:00:01. -/
def c2pipeline : RotateState × FS :=
  match NewLoggerWriterRotateM 9 t6 c2name false 1000 ⟨[], [], []⟩ with
  | ((some (.rotateW w), none), fs) =>
    rotateWrites 9 w fs
      [(⟨2026, 1, 5, 10, 59, 0⟩, part1), (⟨2026, 1, 5, 11, 0, 1⟩, [0x41])]
  | _ => (⟨[], false, 0, 0, t6, 0, none⟩, ⟨[], [], []⟩)

/-- Scenario C4 writer state: threshold 100, 95 bytes already in segment 0,
next index 1, hour boundary not yet reached. -/
def c4w : RotateState :=
  ⟨"log.index".data, false, 100, 1, ⟨2026, 1, 5, 11, 0, 0⟩, 95, some "log.0".data⟩

/-- Scenario C4 file system: segment 0 holds 95 bytes and opening the next
segment `log.1` fails. -/
def c4fs : FS := ⟨[("log.0".data, List.replicate 95 0x61)], ["log.1".data], []⟩

/-- Scenario C4 write: the start-of-entry marker that triggers the (failing)
size rotation. -/
def c4res : WriteRes := rotateWrite 9 c4w c4fs t6 part1

/-- Spec-side separator join: the pieces joined by `sep`, no trailing
separator (the shape the brace encoding is compared against). -/
def joinSep (sep : Bytes) : List Bytes → Bytes
  | [] => []
  | [p] => p
  | p :: ps => p ++ sep ++ joinSep sep ps

/-! ## Helper lemmas -/

theorem setLast_append (l : Bytes) (x c : Nat) : setLast (l ++ [x]) c = l ++ [c] := by
  induction l with
  | nil => rfl
  | cons a l ih =>
    cases l with
    | nil => rfl
    | cons b l2 => simpa [setLast] using ih

theorem trail_eq_joinSep : ∀ ps : List Bytes, ps ≠ [] →
    (ps.map fun q => q ++ [0x2C]).flatten = joinSep [0x2C] ps ++ [0x2C]
  | [p], _ => by simp [joinSep]
  | p :: q :: qs, _ => by
    have h2 := trail_eq_joinSep (q :: qs) (List.cons_ne_nil _ _)
    rw [List.map_cons, List.flatten_cons, h2]
    simp [joinSep]

theorem writeStructList_eq (fields : List (Bytes × Bool × RValue)) :
    writeStructList fields = ((visFields fields).map structPairEnc |>.map fun q => q ++ [0x2C]).flatten := by
  induction fields with
  | nil => rfl
  | cons f fs ih =>
    obtain ⟨n, vis, v⟩ := f
    cases vis with
    | false => simpa [writeStructList, visFields] using ih
    | true => simp [writeStructList, visFields, structPairEnc, ih]

theorem writeMapList_eq (kvs : List (RValue × RValue)) :
    writeMapList kvs = (kvs.map mapPairEnc |>.map fun q => q ++ [0x2C]).flatten := by
  induction kvs with
  | nil => rfl
  | cons kv kvs ih =>
    obtain ⟨k, v⟩ := kv
    simp [writeMapList, mapPairEnc, ih]

/-! ## Claims -/

/-- C10: constructing a writer with an empty file path pattern never fails
and falls back to the standard-output sink — `NewLoggerWriterRotate` with an
empty name, any std flag and any maxsize returns the stdout writer and no
error, via `NewLoggerWriterFile`'s empty-name case, leaving the file system
untouched. -/
theorem claim_C10 (fuel : Nat) (now : GoTime) (std : Bool) (maxsize : Nat) (fs : FS) :
    NewLoggerWriterRotateM fuel now [] std maxsize fs = ((some .stdoutW, none), fs) := by
  have hfmt : formatDateName now [] = [] := rfl
  have hcont : containsSeq "index".data ([] : List Char) = false := by decide
  simp [NewLoggerWriterRotateM, NewLoggerWriterFileM, hfmt, hcont]

/-- C1: a logging call (plain or formatted) at a severity strictly below the
configured threshold renders nothing and writes nothing (`none`), while
Fatal and Fatalf always render and write the line, whatever the threshold. -/
theorem claim_C1 (cfg : LoggerCfgM) (now : GoTime) (tmpl msg : Bytes)
    (nfl : List Char × List Char × Int) (sev : Nat) (hs : sev < cfg.level) (h4 : sev < 4) :
    plainCallAt sev (getEntry cfg now tmpl) msg now nfl = none ∧
    fmtCallAt sev (getEntry cfg now tmpl) msg now nfl = none ∧
    plainCallAt 4 (getEntry cfg now tmpl) msg now nfl =
      some (writeTo { getEntry cfg now tmpl with level := 4, message := msg } now nfl) ∧
    fmtCallAt 4 (getEntry cfg now tmpl) msg now nfl =
      some (writeTo { getEntry cfg now tmpl with level := 4, message := msg } now nfl) := by
  refine ⟨?_, ?_, rfl, rfl⟩ <;>
  · interval_cases sev <;>
      simp [plainCallAt, fmtCallAt, entryDebug, entryInfo, entryWarning, entryError,
        entryDebugf, entryInfof, entryWarningf, entryErrorf, getEntry] <;>
      omega

/-- C1 witness: at threshold FATAL, a Warning/Warningf call is dropped while
Fatal/Fatalf still render. -/
theorem claim_C1_w :
    plainCallAt 2 (getEntry ⟨4, [], -60⟩ t3a []) [0x78] t3a nfl0 = none ∧
    fmtCallAt 2 (getEntry ⟨4, [], -60⟩ t3a []) [0x78] t3a nfl0 = none ∧
    plainCallAt 4 (getEntry ⟨4, [], -60⟩ t3a []) [0x78] t3a nfl0 =
      some (writeTo { getEntry ⟨4, [], -60⟩ t3a [] with level := 4, message := [0x78] } t3a nfl0) ∧
    fmtCallAt 4 (getEntry ⟨4, [], -60⟩ t3a []) [0x78] t3a nfl0 =
      some (writeTo { getEntry ⟨4, [], -60⟩ t3a [] with level := 4, message := [0x78] } t3a nfl0) :=
  claim_C1 ⟨4, [], -60⟩ t3a [] [0x78] nfl0 2 (by decide) (by decide)

/-- C7: encoding an empty mapping appends exactly the single byte `0x7D` (a
closing brace) — the closing-brace rewrite overwrites the opening brace
itself — and a record whose fields are all externally invisible does the
same. -/
theorem claim_C7 : writeReflect (.mapv []) = [0x7D] ∧
    ∀ fields : List (Bytes × Bool × RValue),
      (∀ f ∈ fields, f.2.1 = false) → writeReflect (.structv fields) = [0x7D] := by
  refine ⟨by decide, ?_⟩
  intro fields h
  have hlist : writeStructList fields = [] := by
    induction fields with
    | nil => rfl
    | cons f fs ih =>
      obtain ⟨n, vis, v⟩ := f
      have hf := h (n, vis, v) (List.mem_cons_self _ _)
      simp only at hf
      subst hf
      simpa [writeStructList] using ih fun g hg => h g (List.mem_cons_of_mem _ hg)
  simp [writeReflect, hlist, setLast]

/-- C7 witness: a one-field record whose field is not externally visible
encodes as the single byte `0x7D`. -/
theorem claim_C7_w : writeReflect (.structv [(asciiB "A", false, .intv 7)]) = [0x7D] :=
  claim_C7.2 [(asciiB "A", false, .intv 7)] (by simp)

/-- C5 (evidence of the code bug): a Warning call that passes the threshold
renders a line whose level bytes are the misspelt `WARIRNG` from the source's
`levels` table, and the bytes `WARNING` appear nowhere in the line. -/
theorem claim_C5 :
    levelsB.getD 2 [] = asciiB "WARIRNG" ∧
    (entryWarning (getEntry c3cfg t3b []) (asciiB "x") t3b nfl0).isSome = true ∧
    (entryWarning (getEntry c3cfg t3b []) (asciiB "x") t3b nfl0).getD [] = c5out ∧
    containsSeq (asciiB "WARIRNG") c5out = true ∧
    containsSeq (asciiB "WARNING") c5out = false := by decide

/-- C3 (evidence of the code bug): `WithField("time", t)` stores `t` in the
entry and serializes no data field, but the rendered line is byte-for-byte
the same as without the override — `writeTo` formats `time.Now()` (here
hour 11) and never reads the stored timestamp (hour 10), whose formatted
text appears nowhere in the output. -/
theorem claim_C3 :
    c3over.time = t3a ∧
    c3over.data = c3entry.data ∧
    writeTo c3over t3b nfl0 = writeTo c3entry t3b nfl0 ∧
    containsSeq (asciiL (goFormat t3b c3cfg.timeformat)) (writeTo c3over t3b nfl0) = true ∧
    containsSeq (asciiL (goFormat t3a c3cfg.timeformat)) (writeTo c3over t3b nfl0) = false ∧
    goFormat t3a c3cfg.timeformat ≠ goFormat t3b c3cfg.timeformat := by decide

/-- C2 counterexample: in the concrete run `c2pipeline` one rendered line —
the marker `part1` followed by the byte `0x41` — is split by a time-based
rotation that fires between the two writes: segment `10.0` holds only the
marker, segment `11.0` only the rest, and no segment contains the whole
line, refuting that every line is fully contained in exactly one segment. -/
theorem claim_C2_cex :
    fsLookup c2pipeline.2 "10.0".data = some part1 ∧
    fsLookup c2pipeline.2 "11.0".data = some [0x41] ∧
    c2pipeline.2.files.length = 2 ∧
    containsSeq (part1 ++ [0x41]) ((fsLookup c2pipeline.2 "10.0".data).getD []) = false ∧
    containsSeq (part1 ++ [0x41]) ((fsLookup c2pipeline.2 "11.0".data).getD []) = false := by
  decide

set_option maxRecDepth 100000 in
/-- C6 counterexample: with threshold 100 and ten-byte lines, after 10 lines
segment `log.0` holds 100 bytes — ten lines, not nine — and is still the
open segment, with no `log.1` created; so the sink did NOT roll at or before
the 10th line, refuting the claimed 9-line segment. -/
theorem claim_C6_cex :
    ((fsLookup (c6pipeline 10).2 "log.0".data).getD []).length = 100 ∧
    (c6pipeline 10).1.fileName = some "log.0".data ∧
    fsLookup (c6pipeline 10).2 "log.1".data = none ∧
    ¬((fsLookup (c6pipeline 10).2 "log.0".data).getD []).length = 90 := by decide

set_option maxRecDepth 100000 in
/-- C6 (amended): segment 0 receives exactly ten 10-byte lines (100 bytes,
not nine lines), and the sink rolls to segment 1 at the 11th line's marker,
when the accumulated 100 bytes plus the 9-byte marker meet the threshold;
after 9 lines the sink is still on segment 0 with 90 bytes. -/
theorem claim_C6 :
    ((fsLookup (c6pipeline 9).2 "log.0".data).getD []).length = 90 ∧
    (c6pipeline 9).1.fileName = some "log.0".data ∧
    ((fsLookup (c6pipeline 11).2 "log.0".data).getD []).length = 100 ∧
    (c6pipeline 11).1.fileName = some "log.1".data ∧
    ((fsLookup (c6pipeline 11).2 "log.1".data).getD []).length = 10 := by decide

/-- C4 counterexample: a marker write that triggers a size rotation whose
new-segment open fails (`log.1` is set to fail) returns `(9, none)` — the
rotation error is NOT surfaced as the Write call's return value, refuting
the claim; the writer keeps appending to the previous segment.  The last
conjunct shows the rotation really was attempted and failed. -/
theorem claim_C4_cex :
    c4res.err = none ∧
    c4res.n = 9 ∧
    c4res.w.fileName = some "log.0".data ∧
    fsLookup c4res.fs "log.0".data = some (List.replicate 95 0x61 ++ part1) ∧
    (rotateFile 9 c4w c4fs t6).2.2 = some "log.1".data := by decide

/-- C9 counterexample: a one-field struct and a map with the same string key
and value encode differently — the struct's key `A` is NOT quoted, so struct
keys are not formatted as the mapping encoding formats its string keys,
refuting the claim. -/
theorem claim_C9_cex :
    writeReflect (.structv [(asciiB "A", true, .intv 1)]) = [0x7B, 0x41, 0x3A, 0x31, 0x7D] ∧
    writeReflect (.mapv [(.strv (asciiB "A"), .intv 1)]) =
      [0x7B, 0x22, 0x41, 0x22, 0x3A, 0x31, 0x7D] ∧
    writeReflect (.structv [(asciiB "A", true, .intv 1)]) ≠
      writeReflect (.mapv [(.strv (asciiB "A"), .intv 1)]) ∧
    containsSeq [0x22, 0x41, 0x22] (writeReflect (.structv [(asciiB "A", true, .intv 1)])) =
      false := by decide

/-- C2 (amended): size-based rotation fires only on the nine-byte
start-of-entry marker meeting the threshold, so any write that is not such a
marker write and happens no later than the recorded next-hour boundary
causes no rotation at all: the Write returns no error, only the byte count
advances, and the bytes are appended whole to the currently open segment.
(The hourly/date check, by contrast, runs on every write and can rotate
mid-line — see the counterexample.) -/
theorem claim_C2 (fuel : Nat) (w : RotateState) (fs : FS) (now : GoTime) (p : Bytes)
    (hm : ¬(p.length = 9 ∧ w.maxSize ≤ w.nbytes + p.length ∧ p = part1))
    (ht : timeAfter now w.nexttime = false) :
    (rotateWrite fuel w fs now p).err = none ∧
    (rotateWrite fuel w fs now p).n = p.length ∧
    (rotateWrite fuel w fs now p).w = { w with nbytes := w.nbytes + p.length } ∧
    (rotateWrite fuel w fs now p).fs.files = (fsAppend fs (w.fileName.getD []) p).files := by
  simp only [rotateWrite]
  rw [if_neg hm]
  simp [ht]
  cases w.std <;> simp [fsAppend]

/-- C2 witness: a one-byte mid-line write before the hour boundary appends to
the open segment with no rotation and no error. -/
theorem claim_C2_w :
    (rotateWrite 1 c4w c4fs t6 [0x41]).err = none ∧
    (rotateWrite 1 c4w c4fs t6 [0x41]).n = ([0x41] : Bytes).length ∧
    (rotateWrite 1 c4w c4fs t6 [0x41]).w =
      { c4w with nbytes := c4w.nbytes + ([0x41] : Bytes).length } ∧
    (rotateWrite 1 c4w c4fs t6 [0x41]).fs.files =
      (fsAppend c4fs (c4w.fileName.getD []) [0x41]).files :=
  claim_C2 1 c4w c4fs t6 [0x41] (by decide) (by decide)

/-- C4 (amended): when a marker write triggers a size rotation and opening
the next segment fails, the rotation error is discarded, not surfaced: the
Write call returns no error, the writer state only advances its byte count
(same open file, same next index), and the marker is appended to the
previous segment, which stays in use. -/
theorem claim_C4 (fuel : Nat) (w : RotateState) (fs : FS) (now : GoTime)
    (hf : 0 < fuel)
    (hsz : w.maxSize ≤ w.nbytes + 9)
    (hfail : replaceAll "index".data (intStr w.nextindex) (formatDateName now w.name) ∈
      fs.failNames)
    (ht : timeAfter now w.nexttime = false) :
    (rotateWrite fuel w fs now part1).err = none ∧
    (rotateWrite fuel w fs now part1).w = { w with nbytes := w.nbytes + 9 } ∧
    (rotateWrite fuel w fs now part1).fs.files =
      (fsAppend fs (w.fileName.getD []) part1).files := by
  obtain ⟨k, rfl⟩ : ∃ k, fuel = k + 1 := ⟨fuel - 1, by omega⟩
  simp [rotateWrite, rotateFile, rotateLoop, hsz, hfail, ht, part1]
  cases hst : w.std <;> simp [hst]

/-- C4 witness: the concrete failing-rotation write of `c4res` surfaces no
error and keeps writing to the previous segment. -/
theorem claim_C4_w :
    (rotateWrite 1 c4w c4fs t6 part1).err = none ∧
    (rotateWrite 1 c4w c4fs t6 part1).w = { c4w with nbytes := c4w.nbytes + 9 } ∧
    (rotateWrite 1 c4w c4fs t6 part1).fs.files =
      (fsAppend c4fs (c4w.fileName.getD []) part1).files :=
  claim_C4 1 c4w c4fs t6 (by decide) (by decide) (by decide) (by decide)

/-- C9 (amended): the struct encoding uses the same brace-delimited,
comma-separated `key:value` scheme as the mapping encoding, restricted to
externally visible fields — but the field names are emitted as escaped,
UNQUOTED text, whereas a mapping's string keys go through the string case
and are quoted. -/
theorem claim_C9 (fields : List (Bytes × Bool × RValue)) (hf : visFields fields ≠ [])
    (kvs : List (RValue × RValue)) (hk : kvs ≠ []) :
    writeReflect (.structv fields) =
      [0x7B] ++ joinSep [0x2C] ((visFields fields).map structPairEnc) ++ [0x7D] ∧
    writeReflect (.mapv kvs) = [0x7B] ++ joinSep [0x2C] (kvs.map mapPairEnc) ++ [0x7D] ∧
    ∀ s : Bytes, writeReflect (.strv s) = [0x22] ++ escString s ++ [0x22] := by
  refine ⟨?_, ?_, fun s => rfl⟩
  · have h1 := writeStructList_eq fields
    have h2 := trail_eq_joinSep ((visFields fields).map structPairEnc) (by simpa using hf)
    simp only [writeReflect, h1, h2]
    rw [show (0x7B : Nat) :: (joinSep [0x2C] ((visFields fields).map structPairEnc) ++ [0x2C]) =
      (0x7B :: joinSep [0x2C] ((visFields fields).map structPairEnc)) ++ [0x2C] by simp,
      setLast_append]
    simp
  · have h1 := writeMapList_eq kvs
    have h2 := trail_eq_joinSep (kvs.map mapPairEnc) (by simpa using hk)
    simp only [writeReflect, h1, h2]
    rw [show (0x7B : Nat) :: (joinSep [0x2C] (kvs.map mapPairEnc) ++ [0x2C]) =
      (0x7B :: joinSep [0x2C] (kvs.map mapPairEnc)) ++ [0x2C] by simp,
      setLast_append]
    simp

/-- C9 witness: instantiating the amended brace-encoding equations on a
one-field struct and a one-pair map. -/
theorem claim_C9_w :
    writeReflect (.structv [(asciiB "A", true, .intv 1)]) =
      [0x7B] ++
        joinSep [0x2C] ((visFields [(asciiB "A", true, .intv 1)]).map structPairEnc) ++ [0x7D] ∧
    writeReflect (.mapv [(.strv (asciiB "A"), .intv 1)]) =
      [0x7B] ++ joinSep [0x2C] ([(.strv (asciiB "A"), .intv 1)].map mapPairEnc) ++ [0x7D] ∧
    ∀ s : Bytes, writeReflect (.strv s) = [0x22] ++ escString s ++ [0x22] :=
  claim_C9 [(asciiB "A", true, .intv 1)] (List.cons_ne_nil _ _)
    [(.strv (asciiB "A"), .intv 1)] (List.cons_ne_nil _ _)
theorem accLo_ge (b0 : Nat) : 0x80 ≤ accLo b0 := by
  unfold accLo; split_ifs <;> omega

theorem unesc_cons_ne (b : Nat) (t : Bytes) (hb : ¬b = 0x5C) :
    jsonUnescape (b :: t) = b :: jsonUnescape t := by
  rw [jsonUnescape.eq_def]
  simp [hb]

theorem unesc_esc_one (e : Nat) (t : Bytes) (he : ¬e = 0x75) :
    jsonUnescape (0x5C :: e :: t) = unescCh e ++ jsonUnescape t := by
  rw [jsonUnescape.eq_def]
  simp [he]

theorem unesc_u_hex (h1 h2 h3 h4 : Nat) (t : Bytes) :
    jsonUnescape (0x5C :: 0x75 :: h1 :: h2 :: h3 :: h4 :: t) =
      utf8Encode (hexVal h1 * 0x1000 + hexVal h2 * 0x100 + hexVal h3 * 0x10 + hexVal h4) ++
        jsonUnescape t := by
  rw [jsonUnescape.eq_def]
  simp

theorem unesc_append_hi (u t : Bytes) (hu : ∀ x ∈ u, ¬x = 0x5C) :
    jsonUnescape (u ++ t) = u ++ jsonUnescape t := by
  induction u with
  | nil => rfl
  | cons a u ih =>
    rw [List.cons_append, unesc_cons_ne a (u ++ t) (hu a (List.mem_cons_self _ _)),
      ih fun x hx => hu x (List.mem_cons_of_mem _ hx)]
    rfl

theorem hexVal_hexDig (d : Nat) (hd : d < 16) : hexVal (hexDig d) = d := by
  unfold hexVal hexDig; split_ifs <;> omega

theorem unesc_escByte (b : Nat) (hb : b < 0x80) (t : Bytes) :
    jsonUnescape (escByte b ++ t) = b :: jsonUnescape t := by
  unfold escByte
  split_ifs with h1 h2 h3 h4 h5
  · exact unesc_cons_ne b t h1.2.1
  · rcases h2 with h | h <;> subst h
    · rw [show ([0x5C, 0x5C] : Bytes) ++ t = 0x5C :: 0x5C :: t from rfl,
        unesc_esc_one _ _ (by decide)]
      rfl
    · rw [show ([0x5C, 0x22] : Bytes) ++ t = 0x5C :: 0x22 :: t from rfl,
        unesc_esc_one _ _ (by decide)]
      rfl
  · subst h3
    rw [show ([0x5C, 0x6E] : Bytes) ++ t = 0x5C :: 0x6E :: t from rfl,
      unesc_esc_one _ _ (by decide)]
    rfl
  · subst h4
    rw [show ([0x5C, 0x72] : Bytes) ++ t = 0x5C :: 0x72 :: t from rfl,
      unesc_esc_one _ _ (by decide)]
    rfl
  · subst h5
    rw [show ([0x5C, 0x74] : Bytes) ++ t = 0x5C :: 0x74 :: t from rfl,
      unesc_esc_one _ _ (by decide)]
    rfl
  · have hd1 : hexVal (hexDig (b / 16)) = b / 16 := hexVal_hexDig _ (by omega)
    have hd2 : hexVal (hexDig (b % 16)) = b % 16 := hexVal_hexDig _ (by omega)
    rw [show ([0x5C, 0x75, 0x30, 0x30, hexDig (b / 16), hexDig (b % 16)] : Bytes) ++ t =
        0x5C :: 0x75 :: 0x30 :: 0x30 :: hexDig (b / 16) :: hexDig (b % 16) :: t from rfl,
      unesc_u_hex, hd1, hd2]
    have hv : hexVal 0x30 = 0 := by decide
    rw [hv]
    have harg : 0 * 0x1000 + 0 * 0x100 + b / 16 * 0x10 + b % 16 = b := by omega
    rw [harg]
    have henc : utf8Encode b = [b] := by unfold utf8Encode; rw [if_pos (by omega : b < 0x80)]
    rw [henc]
    rfl

theorem unesc_runeErr (t : Bytes) :
    jsonUnescape (runeErrEsc ++ t) = 0xEF :: 0xBF :: 0xBD :: jsonUnescape t := by
  rw [show runeErrEsc ++ t = 0x5C :: 0x75 :: 0x66 :: 0x66 :: 0x66 :: 0x64 :: t from rfl,
    unesc_u_hex]
  have hv : utf8Encode (hexVal 0x66 * 0x1000 + hexVal 0x66 * 0x100 + hexVal 0x66 * 0x10 +
      hexVal 0x64) = [0xEF, 0xBF, 0xBD] := by decide
  rw [hv]
  rfl

theorem decodeRune_valid (b : Nat) (rest : Bytes) (hb : 0x80 ≤ b)
    (h2 : ¬((decodeRune (b :: rest)).1 = 0xFFFD ∧ (decodeRune (b :: rest)).2 = 1)) :
    2 ≤ (decodeRune (b :: rest)).2 ∧ (decodeRune (b :: rest)).2 ≤ (b :: rest).length ∧
      ∀ x ∈ (b :: rest).take (decodeRune (b :: rest)).2, 0x80 ≤ x := by
  have hgl := accLo_ge b
  generalize hdr : decodeRune (b :: rest) = p at h2 ⊢
  obtain ⟨r, sz⟩ := p
  dsimp only at h2 ⊢
  rw [decodeRune.eq_def] at hdr
  rcases rest with _ | ⟨b1, _ | ⟨b2, _ | ⟨b3, rest4⟩⟩⟩ <;>
    · dsimp only at hdr
      split_ifs at hdr <;>
        · cases hdr
          simp_all
          try omega

theorem roundAux : ∀ fuel s, s.length ≤ fuel →
    jsonUnescape (escStringAux fuel s) = replaceInvalidAux fuel s := by
  intro fuel
  induction fuel with
  | zero => intro s hs; rfl
  | succ f ih =>
    intro s hs
    rcases s with _ | ⟨b, rest⟩
    · rfl
    · have hs2 : rest.length ≤ f := by simp at hs; omega
      rw [escStringAux.eq_def, replaceInvalidAux.eq_def]
      dsimp only
      by_cases hb : b < 0x80
      · rw [if_pos hb, if_pos hb, unesc_escByte b hb, ih rest hs2]
      · by_cases hinv : (decodeRune (b :: rest)).1 = 0xFFFD ∧ (decodeRune (b :: rest)).2 = 1
        · rw [if_neg hb, if_neg hb, if_pos hinv, if_pos hinv, unesc_runeErr, ih rest hs2]
        · rw [if_neg hb, if_neg hb, if_neg hinv, if_neg hinv]
          obtain ⟨hge2, hlen, hmem⟩ := decodeRune_valid b rest (by omega) hinv
          rw [unesc_append_hi _ _ fun x hx => by have := hmem x hx; omega]
          rw [ih ((b :: rest).drop (decodeRune (b :: rest)).2) (by
            simp only [List.length_drop] at hs ⊢
            simp at hs ⊢
            omega)]

/-- C8: for every message byte string, unescaping the escaper's output with
standard JSON string unescaping yields the original message with each
invalid encoding sequence replaced by the UTF-8 bytes of the Unicode
replacement character: printable ASCII is copied verbatim, backslash and
quote are backslash-escaped, newline, carriage return and tab become their
two-character escapes, other control bytes become `\u00XX`, valid multi-byte
sequences are copied verbatim, and invalid sequences become `�`. -/
theorem claim_C8 (s : Bytes) : jsonUnescape (escString s) = replaceInvalid s :=
  roundAux s.length s le_rfl
